import Mathlib

/-!
Verification of the log4rs file-appender core.

This development shallowly embeds the parts of the crate that the design
document talks about: the `Append` trait with its default `post_rotate`
hook (`src/append/mod.rs`), the `FileAppender` with its `append` and
`post_rotate` implementations and its builder (`src/append/file/mod.rs`),
the `OpenOptions` flag combination those use, and the private serde
helper `DeDuration` (`src/priv_serde.rs`).

Modelling conventions:
* Fallible external effects (flushing a writer, opening a file, running
  the encoder) are decided by an explicit environment value passed to the
  embedded operation; the operation itself is a pure function from the
  appender state and that environment to an outcome.
* The buffered writer is modelled by its OS file handle and its buffer
  capacity; the bytes sitting in the buffer are not tracked at this
  level (flush is an external effect whose success or failure the
  environment decides).  Byte-level file contents are modelled
  separately, for the `OpenOptions` semantics and for the lock
  interleaving model.
* Rust's scoped lock guard (RAII release on every exit path) is made
  visible as an explicit event trace emitted by `append`, and as an
  explicit lock-owner field in the small-step interleaving model.
-/

namespace Log4rs

/-- An I/O error, identified by an abstract error code.  Model of
`std::io::Error` as it crosses the interfaces of this crate. -/
structure IoError where
  code : Nat
deriving DecidableEq

/-- An error raised by the (external, opaque) encoder capability. -/
structure EncodeError where
  code : Nat
deriving DecidableEq

/-- The error of `FileAppender::append`, whose `Box<Error>` result boxes
either the encoder's error or the flush's I/O error. -/
inductive AppendError
  | encodeErr (e : EncodeError)
  | ioErr (e : IoError)
deriving DecidableEq

/-- An open OS file handle (`std::fs::File`), identified abstractly. -/
structure File where
  handle : Nat
deriving DecidableEq

/-- Model of `std::io::BufWriter<File>`: a file handle plus the fixed
internal buffer capacity it was created with. -/
structure BufWriter where
  cap : Nat
  file : File
deriving DecidableEq

/-- `BufWriter::with_capacity(cap, file)`. -/
def BufWriter.with_capacity (cap : Nat) (file : File) : BufWriter :=
  { cap := cap, file := file }

/-- Model of `encode::writer::SimpleWriter<BufWriter<File>>`, the
newtype the appender keeps behind its mutex. -/
structure SimpleWriter where
  inner : BufWriter
deriving DecidableEq

/-- The boxed `Encode` trait object.  The encoder is an external
collaborator; we only distinguish the default `PatternEncoder::default()`
from any other installed encoder. -/
inductive Encode
  | patternDefault
  | custom (id : Nat)
deriving DecidableEq

/-- The `FileAppender` struct: configured path, the mutex-guarded
writer, the boxed encoder, and the append-vs-truncate flag used for
reopening (`src/append/file/mod.rs`, lines 23-28).  The mutex itself is
implicit: operations below receive the whole appender and return the
updated one, mirroring code that runs under the acquired lock. -/
structure FileAppender where
  path : String
  file : SimpleWriter
  encoder : Encode
  append : Bool
deriving DecidableEq

/-- The flag set of `std::fs::OpenOptions` (only the flags this crate
touches). -/
structure OpenOptions where
  writeFlag : Bool := false
  appendFlag : Bool := false
  truncateFlag : Bool := false
  createFlag : Bool := false
deriving DecidableEq

/-- `OpenOptions::new()`. -/
def OpenOptions.new : OpenOptions := {}

/-- `OpenOptions::write(b)` builder method. -/
def OpenOptions.write (o : OpenOptions) (b : Bool) : OpenOptions :=
  { o with writeFlag := b }

/-- `OpenOptions::append(b)` builder method. -/
def OpenOptions.append (o : OpenOptions) (b : Bool) : OpenOptions :=
  { o with appendFlag := b }

/-- `OpenOptions::create(b)` builder method. -/
def OpenOptions.create (o : OpenOptions) (b : Bool) : OpenOptions :=
  { o with createFlag := b }

/-- The exact option chain both `FileAppenderBuilder::build` and
`FileAppender::post_rotate` pass to `OpenOptions::open`:
`OpenOptions::new().write(true).append(flag).create(true)`
(`src/append/file/mod.rs`, lines 53-57 and 102-106).  Note that the
source never calls `.truncate(..)`. -/
def fileOpenOptions (appendMode : Bool) : OpenOptions :=
  ((OpenOptions.new.write true).append appendMode).create true

/-- Rust `OpenOptions::open` semantics, restricted to the write-capable
flag combinations this crate uses: given the prior contents of the path
(`none` when no file exists) it yields the file contents right after the
open together with the initial write position.  `create` makes a missing
file empty; `truncate` empties an existing one; `append` places every
write at the end, while plain `write` starts overwriting at offset 0. -/
def OpenOptions.openContents (o : OpenOptions) (prior : Option (List Nat)) :
    Except IoError (List Nat × Nat) :=
  match prior with
  | none => if o.createFlag then Except.ok ([], 0) else Except.error ⟨2⟩
  | some c =>
    let c2 := if o.truncateFlag then [] else c
    Except.ok (c2, if o.appendFlag then c2.length else 0)

/-- Environment for one `post_rotate` call: the outcome the OS gives to
the flush of the current writer, and the outcome of the
`OpenOptions::open` call at the configured path. -/
structure RotateEnv where
  flushRes : Except IoError Unit
  openRes : Except IoError File

/-- Outcome of one `post_rotate` call: the appender state after the
call, the returned `io::Result<()>`, and whether control ever reached
the `OpenOptions::open` call (it does not when the initial
`try!(writer.flush())` returns early). -/
structure RotateOutcome where
  state : FileAppender
  result : Except IoError Unit
  openAttempted : Bool

/-- `FileAppender::post_rotate` (`src/append/file/mod.rs`, lines 47-65):
lock the writer; `try!(writer.flush())`; `try!` the open of a fresh
handle at `self.path` with `fileOpenOptions self.append`; on success
replace the locked writer with
`SimpleWriter(BufWriter::with_capacity(1024, file))`.  Each `try!` early
return drops the lock guard. -/
def FileAppender.post_rotate (a : FileAppender) (env : RotateEnv) : RotateOutcome :=
  match env.flushRes with
  | Except.error e => { state := a, result := Except.error e, openAttempted := false }
  | Except.ok _ =>
    match env.openRes with
    | Except.error e => { state := a, result := Except.error e, openAttempted := true }
    | Except.ok f =>
      let new_writer := SimpleWriter.mk (BufWriter.with_capacity 1024 f)
      { state := { a with file := new_writer }, result := Except.ok (), openAttempted := true }

/-- Environment for one `append` call: the encoder's result and the
flush's result. -/
structure AppendEnv where
  encodeRes : Except EncodeError Unit
  flushRes : Except IoError Unit

/-- Observable events of one `append` call, including the RAII lock
acquisition and release. -/
inductive AEvent
  | lockAcquire
  | encodeInto
  | flushCall
  | lockRelease
deriving DecidableEq

/-- Outcome of one `append` call: resulting appender state, returned
result, and the event trace (lock guard drop emits `lockRelease` on
every exit path, including the `try!` early returns). -/
structure AppendOutcome where
  state : FileAppender
  result : Except AppendError Unit
  trace : List AEvent

/-- `FileAppender::append` (`src/append/file/mod.rs`, lines 40-45):
lock the writer, `try!(self.encoder.encode(&mut *file, record))`,
`try!(file.flush())`, return `Ok(())`.  Named `appendRecord` here only
because the struct already has a field called `append`. -/
def FileAppender.appendRecord (a : FileAppender) (env : AppendEnv) : AppendOutcome :=
  match env.encodeRes with
  | Except.error e =>
    { state := a
      result := Except.error (AppendError.encodeErr e)
      trace := [AEvent.lockAcquire, AEvent.encodeInto, AEvent.lockRelease] }
  | Except.ok _ =>
    match env.flushRes with
    | Except.error e =>
      { state := a
        result := Except.error (AppendError.ioErr e)
        trace := [AEvent.lockAcquire, AEvent.encodeInto, AEvent.flushCall, AEvent.lockRelease] }
    | Except.ok _ =>
      { state := a
        result := Except.ok ()
        trace := [AEvent.lockAcquire, AEvent.encodeInto, AEvent.flushCall, AEvent.lockRelease] }

/-- `FileAppenderBuilder` (`src/append/file/mod.rs`, lines 79-82). -/
structure FileAppenderBuilder where
  encoder : Encode
  append : Bool
deriving DecidableEq

/-- `FileAppender::builder()` (`src/append/file/mod.rs`, lines 70-75):
default encoder `PatternEncoder::default()`, default `append = true`. -/
def FileAppender.builder : FileAppenderBuilder :=
  { encoder := Encode.patternDefault, append := true }

/-- `FileAppenderBuilder::build(path)` (`src/append/file/mod.rs`, lines
100-114): `try!` the open of the path with `fileOpenOptions self.append`
(outcome supplied by `openRes`), then assemble the appender with a
`SimpleWriter(BufWriter::with_capacity(1024, file))` behind the mutex. -/
def FileAppenderBuilder.build (b : FileAppenderBuilder) (path : String)
    (openRes : Except IoError File) : Except IoError FileAppender :=
  match openRes with
  | Except.error e => Except.error e
  | Except.ok f =>
    Except.ok
      { path := path
        file := SimpleWriter.mk (BufWriter.with_capacity 1024 f)
        encoder := b.encoder
        append := b.append }

/-- The `Append` trait's provided default for `post_rotate`
(`src/append/mod.rs`, lines 20-22): the body is just `Ok(())` — it never
touches `self`.  Modelled in state-passing form over any appender state
type. -/
def Append.postRotateDefault {α : Type} (s : α) : α × Except IoError Unit :=
  (s, Except.ok ())

/-- `std::time::Duration` as used here: whole seconds plus nanoseconds. -/
structure Duration where
  secs : Nat
  nanos : Nat
deriving DecidableEq

/-- `Duration::from_secs(n)`. -/
def Duration.from_secs (n : Nat) : Duration :=
  { secs := n, nanos := 0 }

/-- The `DeDuration` newtype of `src/priv_serde.rs`. -/
structure DeDuration where
  val : Duration
deriving DecidableEq

/-- `DeDuration`'s `Deserialize` impl (`src/priv_serde.rs`, lines 36-42):
`u64::deserialize(d).map(|r| DeDuration(Duration::from_secs(r)))`.
The argument is the result of the underlying `u64` deserialization (the
`u64` value is modelled as a `Nat`); the error type of the serde
deserializer stays abstract. -/
def DeDuration.deserialize {E : Type} (r : Except E Nat) : Except E DeDuration :=
  r.map fun v => DeDuration.mk (Duration.from_secs v)

/-! ## Lock interleaving model

The contents of `FileAppender.file` are guarded by a mutex, and both
`append` and `post_rotate` hold that mutex for their whole critical
section.  To reason about an `append` racing a rotation we give a
small-step semantics: micro-steps tagged by thread, a lock-owner field
that disables the steps of every other thread, and byte-level file
contents per OS handle (an association list from handle to bytes). -/

/-- Look up the bytes of handle `k` (a file that was never written is
empty). -/
def getF : List (Nat × List Nat) → Nat → List Nat
  | [], _ => []
  | (k2, v2) :: rest, k => if k2 = k then v2 else getF rest k

/-- Set the bytes of handle `k`. -/
def setF : List (Nat × List Nat) → Nat → List Nat → List (Nat × List Nat)
  | [], k, v => [(k, v)]
  | (k2, v2) :: rest, k, v =>
    if k2 = k then (k, v) :: rest else (k2, v2) :: setF rest k v

/-- State of one file sink under the interleaving model: who owns the
writer mutex, which OS handle the installed writer currently wraps, and
the bytes written to every handle so far. -/
structure St where
  lockOwner : Option Nat
  cur : Nat
  fs : List (Nat × List Nat)
deriving DecidableEq

/-- Micro-steps, tagged by the thread `t` performing them: acquire or
release the writer mutex, write one byte through the installed writer,
or swap the installed writer to a freshly opened handle. -/
inductive Micro
  | acq (t : Nat)
  | rel (t : Nat)
  | wbyte (t : Nat) (b : Nat)
  | swap (t : Nat) (h : Nat)
deriving DecidableEq

/-- One micro-step.  A step not enabled in `s` (lock discipline
violated) yields `none`. -/
def step (s : St) (m : Micro) : Option St :=
  match m with
  | Micro.acq t =>
    if s.lockOwner = none then some { s with lockOwner := some t } else none
  | Micro.rel t =>
    if s.lockOwner = some t then some { s with lockOwner := none } else none
  | Micro.wbyte t b =>
    if s.lockOwner = some t then
      some { s with fs := setF s.fs s.cur (getF s.fs s.cur ++ [b]) }
    else none
  | Micro.swap t h =>
    if s.lockOwner = some t then some { s with cur := h } else none

/-- Run a schedule of micro-steps; `none` as soon as a step is not
enabled. -/
def exec : List Micro → St → Option St
  | [], s => some s
  | m :: ms, s =>
    match step s m with
    | none => none
    | some s2 => exec ms s2

/-- The critical section of `FileAppender::append` run by thread `t`
for a record encoding to the bytes `rec`: acquire the mutex, push every
byte of the record through the installed writer, release. -/
def appendProg (t : Nat) (rec : List Nat) : List Micro :=
  Micro.acq t :: (rec.map (Micro.wbyte t) ++ [Micro.rel t])

/-- The critical section of a successful `FileAppender::post_rotate`
run by thread `t` whose reopen produced handle `h`: acquire the mutex,
swap the installed writer to the new handle, release. -/
def rotateProg (t : Nat) (h : Nat) : List Micro :=
  [Micro.acq t, Micro.swap t h, Micro.rel t]

/-- `Interleave xs ys zs`: `zs` is an order-preserving interleaving of
`xs` and `ys` — the schedules two threads can produce. -/
inductive Interleave : List Micro → List Micro → List Micro → Prop
  | nil : Interleave [] [] []
  | left {x xs ys zs} : Interleave xs ys zs → Interleave (x :: xs) ys (x :: zs)
  | right {y xs ys zs} : Interleave xs ys zs → Interleave xs (y :: ys) (y :: zs)

/-- A sample appender used to instantiate the universally quantified
theorems below at a concrete input. -/
def sampleAppender : FileAppender :=
  { path := "log"
    file := SimpleWriter.mk (BufWriter.with_capacity 1024 (File.mk 0))
    encoder := Encode.patternDefault
    append := true }

/-! ## Theorems about the embedded operations -/

/-- Claim C1: if the attempt in `post_rotate` to open a fresh handle at
the configured path fails, the previously installed writer remains
installed unchanged and the failure is returned to the caller. -/
theorem post_rotate_open_failure_keeps_old_writer
    (a : FileAppender) (env : RotateEnv) (e : IoError)
    (hflush : env.flushRes = Except.ok ()) (hopen : env.openRes = Except.error e) :
    (a.post_rotate env).state = a ∧ (a.post_rotate env).result = Except.error e := by
  simp [FileAppender.post_rotate, hflush, hopen]

/-- Witness for C1 at a concrete appender and environment. -/
theorem post_rotate_open_failure_keeps_old_writer_witness :
    (sampleAppender.post_rotate ⟨Except.ok (), Except.error ⟨5⟩⟩).state = sampleAppender ∧
    (sampleAppender.post_rotate ⟨Except.ok (), Except.error ⟨5⟩⟩).result = Except.error ⟨5⟩ :=
  post_rotate_open_failure_keeps_old_writer sampleAppender
    ⟨Except.ok (), Except.error ⟨5⟩⟩ ⟨5⟩ rfl rfl

/-- Counterexample to claim C2 as stated: `post_rotate` begins with
`try!(writer.flush())`, so at a concrete environment whose flush fails
(while the open would have succeeded) the reopen is never attempted and
the flush error is returned — the flush is not best-effort. -/
theorem post_rotate_flush_failure_cex :
    (sampleAppender.post_rotate ⟨Except.error ⟨7⟩, Except.ok ⟨9⟩⟩).openAttempted = false ∧
    (sampleAppender.post_rotate ⟨Except.error ⟨7⟩, Except.ok ⟨9⟩⟩).result = Except.error ⟨7⟩ ∧
    (sampleAppender.post_rotate ⟨Except.error ⟨7⟩, Except.ok ⟨9⟩⟩).state = sampleAppender :=
  ⟨rfl, rfl, rfl⟩

/-- Claim C2 (amended): when the flush at the start of `post_rotate`
fails, the rotation is aborted — the flush error is returned, the
reopen is never attempted, and the old writer stays installed. -/
theorem post_rotate_flush_failure_aborts
    (a : FileAppender) (env : RotateEnv) (e : IoError)
    (hflush : env.flushRes = Except.error e) :
    (a.post_rotate env).result = Except.error e ∧
    (a.post_rotate env).openAttempted = false ∧
    (a.post_rotate env).state = a := by
  simp [FileAppender.post_rotate, hflush]

/-- Witness for the amended C2 at a concrete appender and environment. -/
theorem post_rotate_flush_failure_aborts_witness :
    (sampleAppender.post_rotate ⟨Except.error ⟨7⟩, Except.ok ⟨9⟩⟩).result = Except.error ⟨7⟩ ∧
    (sampleAppender.post_rotate ⟨Except.error ⟨7⟩, Except.ok ⟨9⟩⟩).openAttempted = false ∧
    (sampleAppender.post_rotate ⟨Except.error ⟨7⟩, Except.ok ⟨9⟩⟩).state = sampleAppender :=
  post_rotate_flush_failure_aborts sampleAppender ⟨Except.error ⟨7⟩, Except.ok ⟨9⟩⟩ ⟨7⟩ rfl

/-- Claim C3: whenever the reopen in `post_rotate` succeeds, the locked
writer is replaced by a new buffered writer (capacity 1024) over the
fresh handle — the state is exactly the old appender with its writer
swapped — and the call returns `Ok`. -/
theorem post_rotate_success_swaps_writer
    (a : FileAppender) (env : RotateEnv) (f : File)
    (hflush : env.flushRes = Except.ok ()) (hopen : env.openRes = Except.ok f) :
    (a.post_rotate env).state =
      { a with file := SimpleWriter.mk (BufWriter.with_capacity 1024 f) } ∧
    (a.post_rotate env).state.file.inner.file = f ∧
    (a.post_rotate env).result = Except.ok () := by
  simp [FileAppender.post_rotate, hflush, hopen, BufWriter.with_capacity]

/-- Witness for C3 at a concrete appender and environment. -/
theorem post_rotate_success_swaps_writer_witness :
    (sampleAppender.post_rotate ⟨Except.ok (), Except.ok ⟨9⟩⟩).state =
      { sampleAppender with file := SimpleWriter.mk (BufWriter.with_capacity 1024 ⟨9⟩) } ∧
    (sampleAppender.post_rotate ⟨Except.ok (), Except.ok ⟨9⟩⟩).state.file.inner.file = ⟨9⟩ ∧
    (sampleAppender.post_rotate ⟨Except.ok (), Except.ok ⟨9⟩⟩).result = Except.ok () :=
  post_rotate_success_swaps_writer sampleAppender ⟨Except.ok (), Except.ok ⟨9⟩⟩ ⟨9⟩ rfl rfl

/-- Claim C4: `append` locks, encodes into the locked writer, then
flushes; it returns `Ok` exactly when both steps succeed, returns the
encoder's error without attempting the flush when encoding fails,
returns the flush's I/O error when flushing fails, and the lock is
released on every exit path (the trace always ends in `lockRelease`). -/
theorem append_encode_flush_contract (a : FileAppender) (env : AppendEnv) :
    ((a.appendRecord env).result = Except.ok () ↔
      env.encodeRes = Except.ok () ∧ env.flushRes = Except.ok ()) ∧
    (∀ e, env.encodeRes = Except.error e →
      (a.appendRecord env).result = Except.error (AppendError.encodeErr e) ∧
      (a.appendRecord env).trace =
        [AEvent.lockAcquire, AEvent.encodeInto, AEvent.lockRelease]) ∧
    (∀ e, env.encodeRes = Except.ok () → env.flushRes = Except.error e →
      (a.appendRecord env).result = Except.error (AppendError.ioErr e) ∧
      (a.appendRecord env).trace =
        [AEvent.lockAcquire, AEvent.encodeInto, AEvent.flushCall, AEvent.lockRelease]) ∧
    (a.appendRecord env).trace.head? = some AEvent.lockAcquire ∧
    (a.appendRecord env).trace.getLast? = some AEvent.lockRelease := by
  obtain ⟨er, fr⟩ := env
  cases er <;> cases fr <;> simp [FileAppender.appendRecord]

/-- Witness for C4 at a concrete environment whose encoder fails. -/
theorem append_encode_flush_contract_witness :
    (sampleAppender.appendRecord ⟨Except.error ⟨3⟩, Except.ok ()⟩).result
      = Except.error (AppendError.encodeErr ⟨3⟩) ∧
    (sampleAppender.appendRecord ⟨Except.error ⟨3⟩, Except.ok ()⟩).trace
      = [AEvent.lockAcquire, AEvent.encodeInto, AEvent.lockRelease] :=
  (append_encode_flush_contract sampleAppender ⟨Except.error ⟨3⟩, Except.ok ()⟩).2.1 ⟨3⟩ rfl

/-- Claim C5, evaluated at the failing input: the option chain used by
`build` and `post_rotate` never sets `truncate`, so with `append =
false` a pre-existing file keeps its prior contents and the write
position is 0 (overwrite in place) — the contents are not removed; with
`append = true` the position is at the end of the retained contents. -/
theorem build_append_false_preserves_contents :
    (fileOpenOptions false).truncateFlag = false ∧
    (fileOpenOptions false).openContents (some [111, 108, 100]) =
      Except.ok ([111, 108, 100], 0) ∧
    (fileOpenOptions true).openContents (some [111, 108, 100]) =
      Except.ok ([111, 108, 100], 3) :=
  ⟨rfl, rfl, rfl⟩

/-- Claim C7: the `Append` trait's default `post_rotate` hook leaves the
appender's state untouched and always returns `Ok(())`. -/
theorem default_post_rotate_noop {α : Type} (s : α) :
    Append.postRotateDefault s = (s, Except.ok ()) := rfl

/-- Claim C8: `FileAppender::builder()` defaults to the pattern encoder
and `append = true`, and both `build` and every successful
`post_rotate` install a buffered writer with capacity 1024. -/
theorem builder_defaults_and_buffer_capacity :
    FileAppender.builder.encoder = Encode.patternDefault ∧
    FileAppender.builder.append = true ∧
    (∀ (b : FileAppenderBuilder) (path : String) (f : File),
      (b.build path (Except.ok f)).map (fun a => a.file.inner.cap) = Except.ok 1024) ∧
    (∀ (a : FileAppender) (f : File),
      (a.post_rotate ⟨Except.ok (), Except.ok f⟩).state.file.inner.cap = 1024) := by
  refine ⟨rfl, rfl, ?_, ?_⟩ <;> intros <;> rfl

/-- Claim C9: neither `append` nor `post_rotate` changes the appender's
`path`, `encoder` or `append` fields — only the mutex-guarded writer is
ever replaced. -/
theorem append_post_rotate_frame (a : FileAppender) (env : AppendEnv) (renv : RotateEnv) :
    ((a.appendRecord env).state.path = a.path ∧
     (a.appendRecord env).state.encoder = a.encoder ∧
     (a.appendRecord env).state.append = a.append) ∧
    ((a.post_rotate renv).state.path = a.path ∧
     (a.post_rotate renv).state.encoder = a.encoder ∧
     (a.post_rotate renv).state.append = a.append) := by
  obtain ⟨er, fr⟩ := env
  obtain ⟨fr2, orr⟩ := renv
  cases er <;> cases fr <;> cases fr2 <;> cases orr <;>
    simp [FileAppender.appendRecord, FileAppender.post_rotate]

/-! ### Lemmas for the lock interleaving model -/

/-- An interleaving with an exhausted left component is the right list. -/
theorem interleave_nil_left : ∀ {xs ys zs : List Micro},
    Interleave xs ys zs → xs = [] → zs = ys := by
  intro xs ys zs hi
  induction hi with
  | nil => intro _; rfl
  | left _ _ => intro hx; cases hx
  | right _ ih => intro hx; simp [ih hx]

/-- An interleaving with an exhausted right component is the left list. -/
theorem interleave_nil_right : ∀ {xs ys zs : List Micro},
    Interleave xs ys zs → ys = [] → zs = xs := by
  intro xs ys zs hi
  induction hi with
  | nil => intro _; rfl
  | left _ ih => intro hy; simp [ih hy]
  | right _ _ => intro hy; cases hy

/-- The empty left component interleaves with anything. -/
theorem interleave_of_nil_left (ys : List Micro) : Interleave [] ys ys := by
  induction ys with
  | nil => exact Interleave.nil
  | cons y ys ih => exact Interleave.right ih

/-- Running one list fully before the other is an interleaving. -/
theorem interleave_append_left (xs ys : List Micro) : Interleave xs ys (xs ++ ys) := by
  induction xs with
  | nil => simpa using interleave_of_nil_left ys
  | cons x xs ih => exact Interleave.left ih

/-- `exec` splits over list concatenation. -/
theorem exec_append (l1 l2 : List Micro) (s : St) :
    exec (l1 ++ l2) s = (exec l1 s).bind (exec l2) := by
  induction l1 generalizing s with
  | nil => rfl
  | cons m ms ih =>
    cases hs : step s m with
    | none => simp [exec, hs]
    | some s2 => simp [exec, hs, ih]

/-- A runnable schedule decomposes into a first enabled step and a
runnable tail. -/
theorem exec_cons_isSome {m : Micro} {ms : List Micro} {s : St}
    (hv : (exec (m :: ms) s).isSome) :
    ∃ s2, step s m = some s2 ∧ (exec ms s2).isSome := by
  cases hs : step s m with
  | none => simp [exec, hs] at hv
  | some s2 => exact ⟨s2, rfl, by simpa [exec, hs] using hv⟩

/-- While the appending thread (thread 0) holds the mutex, no step of
the rotating thread (which must begin with `acq 1`) is enabled, so a
runnable schedule performs the whole remaining append body first. -/
theorem append_body_excludes_rotator :
    ∀ (bs : List Nat) (tail1 l : List Micro) (s : St),
    s.lockOwner = some 0 →
    Interleave (bs.map (Micro.wbyte 0) ++ [Micro.rel 0]) (Micro.acq 1 :: tail1) l →
    (exec l s).isSome →
    l = (bs.map (Micro.wbyte 0) ++ [Micro.rel 0]) ++ (Micro.acq 1 :: tail1) := by
  intro bs
  induction bs with
  | nil =>
    intro tail1 l s hown hint hval
    simp only [List.map_nil, List.nil_append] at hint ⊢
    cases hint with
    | left h2 => simp [interleave_nil_left h2 rfl]
    | right h2 =>
      exfalso
      have hs : step s (Micro.acq 1) = none := by simp [step, hown]
      simp [exec, hs] at hval
  | cons b bs ih =>
    intro tail1 l s hown hint hval
    simp only [List.map_cons, List.cons_append] at hint ⊢
    cases hint with
    | left h2 =>
      obtain ⟨s2, hstep, hval2⟩ := exec_cons_isSome hval
      simp only [step, hown, if_pos, reduceIte] at hstep
      obtain rfl := Option.some.inj hstep
      have := ih tail1 _ _ rfl h2 hval2
      simp [this]
    | right h2 =>
      exfalso
      have hs : step s (Micro.acq 1) = none := by simp [step, hown]
      simp [exec, hs] at hval

/-- Claim C10: the `DeDuration` deserializer maps a successfully
deserialized `u64` value `n` to exactly `Duration::from_secs(n)` (whole
seconds, zero nanoseconds), propagates the underlying error otherwise,
and succeeds if and only if the underlying `u64` deserialization
succeeds. -/
theorem de_duration_maps_u64_secs {E : Type} (e : E) (n : Nat) :
    DeDuration.deserialize (Except.ok n : Except E Nat) =
      Except.ok (DeDuration.mk { secs := n, nanos := 0 }) ∧
    DeDuration.deserialize (Except.error e : Except E Nat) = Except.error e ∧
    (∀ r : Except E Nat, (DeDuration.deserialize r).isOk = r.isOk) := by
  refine ⟨rfl, rfl, ?_⟩
  intro r
  cases r <;> rfl

/-- While the rotating thread (thread 1) holds the mutex, no step of the
appending thread (which must begin with `acq 0`) is enabled, so a
runnable schedule finishes the rotation critical section first. -/
theorem rotate_body_excludes_appender
    (p0 l : List Micro) (s : St) (h : Nat)
    (hown : s.lockOwner = some 1)
    (hint : Interleave (Micro.acq 0 :: p0) [Micro.swap 1 h, Micro.rel 1] l)
    (hval : (exec l s).isSome) :
    l = Micro.swap 1 h :: Micro.rel 1 :: (Micro.acq 0 :: p0) := by
  cases hint with
  | left h2 =>
    exfalso
    have hs : step s (Micro.acq 0) = none := by simp [step, hown]
    simp [exec, hs] at hval
  | right h2 =>
    obtain ⟨s2, hstep, hval2⟩ := exec_cons_isSome hval
    simp only [step, hown, reduceIte] at hstep
    obtain rfl := Option.some.inj hstep
    cases h2 with
    | left h3 =>
      exfalso
      simp [exec, step] at hval2
    | right h3 =>
      simp [interleave_nil_right h3 rfl]

/-- Serializability of an `append` racing a successful `post_rotate`:
because each critical section starts by taking the writer mutex and only
releases it at its end, every runnable interleaved schedule is one of
the two serial orders. -/
theorem race_serializes (rec : List Nat) (h : Nat) (l : List Micro) (s : St)
    (hfree : s.lockOwner = none)
    (hint : Interleave (appendProg 0 rec) (rotateProg 1 h) l)
    (hval : (exec l s).isSome) :
    l = appendProg 0 rec ++ rotateProg 1 h ∨ l = rotateProg 1 h ++ appendProg 0 rec := by
  simp only [appendProg, rotateProg] at hint ⊢
  cases hint with
  | left h2 =>
    obtain ⟨s2, hstep, hval2⟩ := exec_cons_isSome hval
    simp only [step, hfree, reduceIte] at hstep
    obtain rfl := Option.some.inj hstep
    left
    have := append_body_excludes_rotator rec [Micro.swap 1 h, Micro.rel 1] _ _ rfl h2 hval2
    simp [this]
  | right h2 =>
    obtain ⟨s2, hstep, hval2⟩ := exec_cons_isSome hval
    simp only [step, hfree, reduceIte] at hstep
    obtain rfl := Option.some.inj hstep
    right
    have := rotate_body_excludes_appender _ _ _ h rfl h2 hval2
    simp [this]

/-- Reading back a handle after setting one. -/
theorem getF_setF : ∀ (m : List (Nat × List Nat)) (k j : Nat) (v : List Nat),
    getF (setF m k v) j = if j = k then v else getF m j := by
  intro m k
  induction m with
  | nil =>
    intro j v
    simp only [setF, getF]
    by_cases hj : j = k
    · simp [hj]
    · have hj2 : ¬ (k = j) := fun hh : k = j => hj hh.symm
      simp [hj, hj2]
  | cons p rest ih =>
    obtain ⟨k2, v2⟩ := p
    intro j v
    simp only [setF]
    by_cases hk : k2 = k
    · subst hk
      simp only [reduceIte, getF]
      by_cases hj : k2 = j
      · simp [hj]
      · have hj2 : ¬ (j = k2) := fun hh : j = k2 => hj hh.symm
        simp [hj, hj2]
    · simp only [hk, reduceIte, getF, ih]
      by_cases hj : j = k
      · have hk2j : ¬ (k2 = j) := fun hh : k2 = j => hk (hh.trans hj)
        simp [hj, hk2j, hk]
      · simp [hj]

/-- Running the byte writes of a record while holding the mutex appends
the record, in order and contiguously, to the currently installed
handle, and touches nothing else. -/
theorem exec_writes : ∀ (bs : List Nat) (s : St), s.lockOwner = some 0 →
    ∃ m, exec (bs.map (Micro.wbyte 0)) s = some ⟨some 0, s.cur, m⟩ ∧
      ∀ k, getF m k = if k = s.cur then getF s.fs k ++ bs else getF s.fs k := by
  intro bs
  induction bs with
  | nil =>
    intro s hown
    refine ⟨s.fs, ?_, ?_⟩
    · cases s
      simp_all [exec]
    · intro k
      by_cases hk : k = s.cur <;> simp [hk]
  | cons b bs ih =>
    intro s hown
    obtain ⟨m, hexec, hm⟩ :=
      ih { s with fs := setF s.fs s.cur (getF s.fs s.cur ++ [b]) } hown
    refine ⟨m, ?_, ?_⟩
    · have hstep : step s (Micro.wbyte 0 b) =
          some { s with fs := setF s.fs s.cur (getF s.fs s.cur ++ [b]) } := by
        simp [step, hown]
      simp only [List.map_cons, exec, hstep]
      exact hexec
    · intro k
      have hmk := hm k
      simp only [getF_setF] at hmk
      by_cases hk : k = s.cur
      · simp only [hk, reduceIte] at hmk ⊢
        rw [hmk]
        simp
      · simp only [hk, reduceIte] at hmk ⊢
        exact hmk

/-- Effect of the whole `append` critical section run alone from an
unlocked state: the record lands contiguously on the installed handle
and the mutex ends up free. -/
theorem exec_append_prog (rec : List Nat) (s : St) (hfree : s.lockOwner = none) :
    ∃ m, exec (appendProg 0 rec) s = some ⟨none, s.cur, m⟩ ∧
      ∀ k, getF m k = if k = s.cur then getF s.fs k ++ rec else getF s.fs k := by
  obtain ⟨m, hexec, hm⟩ := exec_writes rec { s with lockOwner := some 0 } rfl
  refine ⟨m, ?_, hm⟩
  have h1 : exec (appendProg 0 rec) s
      = exec (rec.map (Micro.wbyte 0) ++ [Micro.rel 0]) { s with lockOwner := some 0 } := by
    simp [appendProg, exec, step, hfree]
  rw [h1, exec_append, hexec]
  simp [Option.bind, exec, step]

/-- Effect of the whole successful rotation critical section run alone
from an unlocked state: the installed handle becomes `h`, no file
contents change, and the mutex ends up free. -/
theorem exec_rotate_prog (h : Nat) (s : St) (hfree : s.lockOwner = none) :
    exec (rotateProg 1 h) s = some ⟨none, h, s.fs⟩ := by
  simp [rotateProg, exec, step, hfree]

/-- Claim C6: a record appended concurrently with a successful rotation
of the same file sink lands entirely in the pre-rotation writer or
entirely in the post-rotation writer — contiguously, exactly once, with
every other handle untouched — for every schedule the writer mutex
admits. -/
theorem append_rotate_race_atomic (rec : List Nat) (h : Nat) (l : List Micro) (s s2 : St)
    (hfree : s.lockOwner = none)
    (hint : Interleave (appendProg 0 rec) (rotateProg 1 h) l)
    (hrun : exec l s = some s2) :
    s2.lockOwner = none ∧ s2.cur = h ∧
    ∃ tgt, (tgt = s.cur ∨ tgt = h) ∧
      ∀ k, getF s2.fs k = if k = tgt then getF s.fs k ++ rec else getF s.fs k := by
  have hval : (exec l s).isSome := by simp [hrun]
  rcases race_serializes rec h l s hfree hint hval with hl | hl
  · subst hl
    obtain ⟨m, hexec, hm⟩ := exec_append_prog rec s hfree
    rw [exec_append, hexec] at hrun
    simp only [Option.bind] at hrun
    rw [exec_rotate_prog h ⟨none, s.cur, m⟩ rfl] at hrun
    obtain rfl := Option.some.inj hrun
    exact ⟨rfl, rfl, s.cur, Or.inl rfl, hm⟩
  · subst hl
    rw [exec_append, exec_rotate_prog h s hfree] at hrun
    simp only [Option.bind] at hrun
    obtain ⟨m, hexec, hm⟩ := exec_append_prog rec ⟨none, h, s.fs⟩ rfl
    rw [hexec] at hrun
    obtain rfl := Option.some.inj hrun
    exact ⟨rfl, rfl, h, Or.inr rfl, hm⟩

/-- Witness for C6: the all-of-append-then-all-of-rotation schedule for
the two-byte record `[7, 8]` raced against a rotation to handle 1,
started on an unlocked sink writing to handle 0 with no bytes yet. -/
theorem append_rotate_race_atomic_witness :
    (⟨none, 1, [(0, [7, 8])]⟩ : St).lockOwner = none ∧
    (⟨none, 1, [(0, [7, 8])]⟩ : St).cur = 1 ∧
    ∃ tgt, (tgt = (⟨none, 0, []⟩ : St).cur ∨ tgt = 1) ∧
      ∀ k, getF (⟨none, 1, [(0, [7, 8])]⟩ : St).fs k =
        if k = tgt then getF (⟨none, 0, []⟩ : St).fs k ++ [7, 8]
        else getF (⟨none, 0, []⟩ : St).fs k :=
  append_rotate_race_atomic [7, 8] 1 (appendProg 0 [7, 8] ++ rotateProg 1 1)
    ⟨none, 0, []⟩ ⟨none, 1, [(0, [7, 8])]⟩ rfl
    (interleave_append_left _ _) (by decide)

end Log4rs
